import Mathlib

/-!
Verification development for `pandapower/control/util/auxiliary.py`.

The Python module is embedded shallowly:

* Python attribute/parameter values are modelled by `Value` (scalars,
  numpy-like arrays, pandas-like indexed sequences over integers).
* `bool(a == b)` / `all(a == b)` and the `ValueError` raised by ambiguous
  comparisons are modelled by `valueEqBool` / `valueAll` over the common
  comparison result `valueEqRes`, with exceptions modelled by `Except PyErr`.
* The network is a record of a controller table, two transformer tables and
  the characteristic registry; DataFrame rows are association lists.
* Logging is modelled as an explicit list of structured `LogEntry` values.
-/

set_option autoImplicit false

namespace PandapowerControlAux

/-- Python exception kinds relevant to this module. -/
inductive PyErr where
  | valueError
  | typeError
  | keyError
  | userWarning
  deriving DecidableEq, Repr

/-- Model of a Python value stored in a controller attribute or passed in a
parameter dict: a hashable scalar, a numpy-like array (`==` broadcasts and a
non-broadcastable comparison yields the plain bool `False`, as in the numpy
era this module targets), or a pandas-like sequence (`==` against another
sequence of different length raises `ValueError`). -/
inductive Value where
  | scalar (n : Int)
  | arr (xs : List Int)
  | pidx (xs : List Int)
  deriving DecidableEq, Repr

/-- Underlying element list of a value; a scalar is a one-element sequence. -/
def Value.toList : Value → List Int
  | .scalar n => [n]
  | .arr xs => xs
  | .pidx xs => xs

/-- Result of evaluating `a == b` in Python on two `Value`s: a plain bool,
an element-wise boolean sequence, or a raised `ValueError`. -/
inductive EqRes where
  | plain (v : Bool)
  | elems (l : List Bool)
  | raisedVE
  deriving DecidableEq, Repr

/-- Element-wise equality of two equally long integer lists. -/
def zipEqList (xs ys : List Int) : List Bool :=
  xs.zipWith (fun a b => decide (a = b)) ys

/-- Evaluation of the Python expression `a == b` on modelled values.
Scalar/scalar gives a plain bool; a scalar against a sequence broadcasts
element-wise; two numpy arrays broadcast when the lengths match or one side
has length one and otherwise compare to the plain bool `False`; comparisons
involving a pandas-like sequence against another sequence raise `ValueError`
when the lengths differ. -/
def valueEqRes : Value → Value → EqRes
  | .scalar m, .scalar n => .plain (decide (m = n))
  | .scalar m, .arr ys => .elems (ys.map (fun y => decide (m = y)))
  | .scalar m, .pidx ys => .elems (ys.map (fun y => decide (m = y)))
  | .arr xs, .scalar n => .elems (xs.map (fun x => decide (x = n)))
  | .pidx xs, .scalar n => .elems (xs.map (fun x => decide (x = n)))
  | .arr xs, .arr ys =>
      if xs.length = ys.length then .elems (zipEqList xs ys)
      else if xs.length = 1 then .elems (ys.map (fun y => decide (xs.headD 0 = y)))
      else if ys.length = 1 then .elems (xs.map (fun x => decide (x = ys.headD 0)))
      else .plain false
  | .arr xs, .pidx ys =>
      if xs.length = ys.length then .elems (zipEqList xs ys) else .raisedVE
  | .pidx xs, .arr ys =>
      if xs.length = ys.length then .elems (zipEqList xs ys) else .raisedVE
  | .pidx xs, .pidx ys =>
      if xs.length = ys.length then .elems (zipEqList xs ys) else .raisedVE

/-- Evaluation of `bool(a == b)`: truthiness of a one-element boolean
sequence is its element, of a longer or empty one raises `ValueError`
(the ambiguous-truth-value error). -/
def valueEqBool (a b : Value) : Except PyErr Bool :=
  match valueEqRes a b with
  | .plain v => .ok v
  | .elems l => if l.length = 1 then .ok (l.headD false) else .error .valueError
  | .raisedVE => .error .valueError

/-- Evaluation of `all(a == b)`: `all` over an element-wise result succeeds;
`all` applied to a plain bool raises `TypeError`; a raised comparison
propagates its `ValueError`. -/
def valueAll (a b : Value) : Except PyErr Bool :=
  match valueEqRes a b with
  | .plain _ => .error .typeError
  | .elems l => .ok (l.all id)
  | .raisedVE => .error .valueError

/-- Evaluation of `set(xs) & set(ys)` as a duplicate-free list. -/
def pySetInter (xs ys : List Int) : List Int :=
  xs.dedup.filter (fun x => decide (x ∈ ys))

/-- Evaluation of `bool(len(set(a) & set(b)))`. -/
def valueSetInterNonempty (a b : Value) : Bool :=
  !(pySetInter a.toList b.toList).isEmpty

/-- The three-tier per-key comparison of `_controller_attributes_query`:
`bool(a == b)`, on `ValueError` fall back to `all(a == b)`, on a second
`ValueError` fall back to the set-intersection truthiness; only
`ValueError` is caught, any other exception propagates. -/
def keyMatch (a b : Value) : Except PyErr Bool :=
  match valueEqBool a b with
  | .ok m => .ok m
  | .error .valueError =>
      match valueAll a b with
      | .ok m => .ok m
      | .error .valueError => .ok (valueSetInterNonempty a b)
      | .error e => .error e
  | .error e => .error e

/-- The boolean computed by `keyMatch`; by `keyMatch_eq_ok` below the
fallback chain never fails, so this total function describes it exactly. -/
def keyMatchB (a b : Value) : Bool :=
  match keyMatch a b with
  | .ok m => m
  | .error _ => false

/-- A controller object: its `index` attribute (used in log messages), its
`str(...)` display name, the names of the classes in its method-resolution
order (for `isinstance`), and its `__dict__` of attributes. -/
structure Controller where
  cIndex : Int
  displayName : String
  classes : List String
  attrs : List (String × Value)
  deriving DecidableEq, Repr

/-- Logging levels used by the module. -/
inductive LogLevel where
  | debug
  | info
  deriving DecidableEq, Repr

/-- Structured content of the log messages the module emits. -/
inductive LogMsg where
  | keyNotAttribute (key : String)
  | elementIndexIntersection (elems : List Int) (ctrlIndex : Int)
  | creatingController (index : Option Int)
  | droppedControllers (dropped : List Int) (index : Option Int)
  | checkingTrafoChar
  | noTapDependent (table : String)
  | foundTapDependent (table : String) (count : Nat)
  | colMissing (table col : String)
  | colNotObject (table col : String)
  | colMissingSome (table col : String)
  | colInvalidIndices (table col : String)
  | colOk (table col : String) (count : Nat)
  deriving DecidableEq, Repr

/-- A single emitted log line. -/
structure LogEntry where
  level : LogLevel
  msg : LogMsg
  deriving DecidableEq, Repr

deriving instance DecidableEq for Except

/-- Modelled from the spec: `ensure_iterability` (imported from
`pandapower.toolbox`, not part of this file) normalizes a scalar or sequence
into an iterable; a scalar becomes a one-element sequence. -/
def ensure_iterability (v : Value) : List Int :=
  v.toList

/-- Attribute value of a controller under a key, defaulting to a scalar for
a key that is absent (the default is only used on unreachable paths). -/
def controllerAttr (c : Controller) (k : String) : Value :=
  (c.attrs.lookup k).getD (.scalar 0)

/-- Outcome of the key-iteration loop of `_controller_attributes_query`:
either an early `return False` on the first key that is no attribute of the
controller, or the pair of accumulated flags `complete_match` and
`element_index_match`. -/
inductive QueryOutcome where
  | missing (k : String)
  | done (complete_match element_index_match : Bool)
  deriving DecidableEq, Repr

/-- The `for key in parameters.keys()` loop of `_controller_attributes_query`
with its two boolean accumulators. -/
def queryLoop (c : Controller) :
    List (String × Value) → Bool → Bool → Except PyErr QueryOutcome
  | [], cm, em => .ok (.done cm em)
  | (k, v) :: rest, cm, em =>
      match c.attrs.lookup k with
      | none => .ok (.missing k)
      | some av =>
          match keyMatch av v with
          | .error e => .error e
          | .ok m =>
              if k = "element_index" then queryLoop c rest cm m
              else queryLoop c rest (cm && m) em

/-- Embedding of `_controller_attributes_query(controller, parameters)`:
returns the boolean result together with the log lines emitted during the
call. -/
def _controller_attributes_query (c : Controller)
    (parameters : List (String × Value)) : Except PyErr (Bool × List LogEntry) :=
  match queryLoop c parameters true true with
  | .error e => .error e
  | .ok (.missing k) => .ok (false, [⟨.debug, .keyNotAttribute k⟩])
  | .ok (.done cm em) =>
      let logs :=
        if cm && !em then
          let inter := pySetInter
            (ensure_iterability (controllerAttr c "element_index"))
            (ensure_iterability ((parameters.lookup "element_index").getD (.scalar 0)))
          if !inter.isEmpty then
            [⟨.info, .elementIndexIntersection inter c.cIndex⟩]
          else []
        else []
      .ok (cm && em, logs)

/-- A row of the `net.controller` DataFrame: its index label, the stored
controller object (the `object` column), and the scalar cells of the other
columns; a cell that is absent from the association list models a null. -/
structure ControllerRow where
  idx : Int
  obj : Controller
  cells : List (String × Int)
  deriving DecidableEq, Repr

/-- The `net.controller` DataFrame: the names of its queryable scalar
columns and its rows. -/
structure ControllerTable where
  cols : List String
  rows : List ControllerRow
  deriving DecidableEq, Repr

/-- A sample-point pair; embeds `SplineCharacteristic(x_points, y_points)`.
Modelled from the spec: the characteristic class itself lives in
`control/util/characteristic.py`, outside this file; the spec describes it
as constructible from two equal-length numeric sequences. -/
structure SplineChar where
  x_points : List Int
  y_points : List Int
  deriving DecidableEq, Repr

/-- A row of a transformer table: index label, `tap_dependent_impedance`
cell, and the cells of the characteristic columns (`none` models a null). -/
structure TrafoRow where
  idx : Int
  tapDep : Bool
  cells : List (String × Option Int)
  deriving DecidableEq, Repr

/-- A transformer table (`net.trafo` or `net.trafo3w`): whether the
`tap_dependent_impedance` column exists, which characteristic columns exist,
which of those have dtype `object`, and the rows. -/
structure TrafoTable where
  hasTapCol : Bool
  charColNames : List String
  objectColNames : List String
  rows : List TrafoRow
  deriving DecidableEq, Repr

/-- The network: controller table, the two transformer tables, and the
characteristic registry (`net.characteristic`, whose row ids are the
positions `0, 1, ...`). -/
structure Net where
  controller : ControllerTable
  trafo : TrafoTable
  trafo3w : TrafoTable
  characteristic : List SplineChar
  deriving DecidableEq, Repr

/-- The index of the controller DataFrame, `net.controller.index`. -/
def controllerIndex (net : Net) : List Int :=
  net.controller.rows.map (fun r => r.idx)

/-- The controller object stored at a given index label,
`net.controller.object.at[i]`; the default is only used when the label is
absent, where Python would raise `KeyError`. -/
def objAt (net : Net) (i : Int) : Controller :=
  ((net.controller.rows.find? (fun r => r.idx = i)).map (fun r => r.obj)).getD
    ⟨0, "", [], []⟩

/-- The `idx = idx if len(idx) else net.controller.index` default shared by
the three lookup functions. -/
def searchBase (net : Net) (idx : List Int) : List Int :=
  if idx.length ≠ 0 then idx else controllerIndex net

/-- Embedding of `get_controller_index_by_type(net, ctrl_type, idx)`;
`ctrl_type` is a class name and `isinstance` holds when it occurs in the
controller's class list. -/
def get_controller_index_by_type (net : Net) (ctrl_type : String)
    (idx : List Int) : List Int :=
  let idx := searchBase net idx
  idx.filter (fun i => decide (ctrl_type ∈ (objAt net i).classes))

/-- Characters up to the first space character. -/
def firstTokenAux : List Char → List Char
  | [] => []
  | c :: cs => if c = ' ' then [] else c :: firstTokenAux cs

/-- First token of `str(controller)` under Python's `split(" ")[0]`: the
prefix up to the first space character (the whole string when there is no
space, the empty string when the string starts with a space or is empty). -/
def firstToken (s : String) : String :=
  ⟨firstTokenAux s.data⟩

/-- Python's `str.lower()` on the ASCII range, applied character-wise. -/
def pyLowerChar (c : Char) : Char :=
  if 65 ≤ c.toNat ∧ c.toNat ≤ 90 then Char.ofNat (c.toNat + 32) else c

/-- Python's `str.lower()` (ASCII model). -/
def pyLower (s : String) : String :=
  ⟨s.data.map pyLowerChar⟩

/-- Embedding of
`get_controller_index_by_typename(net, typename, idx, case_sensitive)`. -/
def get_controller_index_by_typename (net : Net) (typename : String)
    (idx : List Int) (case_sensitive : Bool) : List Int :=
  let idx := searchBase net idx
  if case_sensitive then
    idx.filter (fun i => firstToken (objAt net i).displayName = typename)
  else
    idx.filter (fun i =>
      pyLower (firstToken (objAt net i).displayName) = pyLower typename)

/-- The `ctrl_type` argument of `get_controller_index`: either a string
name or a class/type object. -/
inductive CtrlType where
  | name (s : String)
  | cls (s : String)
  deriving DecidableEq, Repr

/-- The boolean mask comparison `net.controller[k] == p` followed by
`net.controller.index[...]`: for a scalar parameter the cell-wise
comparison, for a sequence parameter pandas' positional comparison, which
raises `ValueError` when the lengths differ. -/
def dfMask (t : ControllerTable) (k : String) (p : Value) :
    Except PyErr (List Int) :=
  match p with
  | .scalar n =>
      .ok (((t.rows.filter (fun r =>
        match r.cells.lookup k with
        | some c => decide (c = n)
        | none => false)).map (fun r => r.idx)))
  | .arr xs =>
      if xs.length = t.rows.length then
        .ok (((t.rows.zip xs).filter (fun rx =>
          match rx.1.cells.lookup k with
          | some c => decide (c = rx.2)
          | none => false)).map (fun rx => rx.1.idx))
      else .error .valueError
  | .pidx xs =>
      if xs.length = t.rows.length then
        .ok (((t.rows.zip xs).filter (fun rx =>
          match rx.1.cells.lookup k with
          | some c => decide (c = rx.2)
          | none => false)).map (fun rx => rx.1.idx))
      else .error .valueError

/-- The `for df_key in df_keys` loop of `get_controller_index`: successive
index intersections with the per-column masks. -/
def dfFilterLoop (t : ControllerTable) (P : List (String × Value)) :
    List String → List Int → Except PyErr (List Int)
  | [], idx => .ok idx
  | k :: ks, idx =>
      match dfMask t k ((P.lookup k).getD (.scalar 0)) with
      | .error e => .error e
      | .ok m => dfFilterLoop t P ks (idx.filter (fun i => decide (i ∈ m)))

/-- The final list comprehension of `get_controller_index`: keep the indices
whose controller object satisfies `_controller_attributes_query`. -/
def attrFilterLoop (net : Net) (attrP : List (String × Value)) :
    List Int → Except PyErr (List Int)
  | [] => .ok []
  | i :: is =>
      match _controller_attributes_query (objAt net i) attrP with
      | .error e => .error e
      | .ok r =>
          match attrFilterLoop net attrP is with
          | .error e => .error e
          | .ok rest => .ok (if r.1 then i :: rest else rest)

/-- The type-narrowing phase of `get_controller_index`: a string specifier
goes through `get_controller_index_by_typename` (case-insensitive), a type
object through `get_controller_index_by_type`. -/
def typeNarrow (net : Net) (ct : Option CtrlType) (idx : List Int) :
    List Int :=
  match ct with
  | none => idx
  | some (.name s) => get_controller_index_by_typename net s idx false
  | some (.cls s) => get_controller_index_by_type net s idx

/-- Embedding of `get_controller_index(net, ctrl_type, parameters, idx)`. -/
def get_controller_index (net : Net) (ct : Option CtrlType)
    (parameters : Option (List (String × Value))) (idx : List Int) :
    Except PyErr (List Int) :=
  let idx0 := searchBase net idx
  let idx1 := typeNarrow net ct idx0
  match parameters with
  | none => .ok idx1
  | some P =>
      let df_keys := (P.map Prod.fst).filter (fun k =>
        decide (k ∈ net.controller.cols))
      let attrP := P.filter (fun kv =>
        !(decide (kv.1 ∈ net.controller.cols)))
      match dfFilterLoop net.controller P df_keys idx1 with
      | .error e => .error e
      | .ok idx2 => attrFilterLoop net attrP idx2

/-- Embedding of
`drop_same_type_existing_controllers(net, this_ctrl_type, index,
matching_params)`: returns the updated network and the emitted log lines. -/
def drop_same_type_existing_controllers (net : Net) (this_ctrl_type : CtrlType)
    (index : Option Int) (matching_params : Option (List (String × Value))) :
    Except PyErr (Net × List LogEntry) :=
  match matching_params with
  | some mp =>
      match get_controller_index net (some this_ctrl_type) (some mp) [] with
      | .error e => .error e
      | .ok same =>
      if same.length ≠ 0 then
        .ok ({ net with controller :=
                 { net.controller with rows :=
                     net.controller.rows.filter (fun r =>
                       !(decide (r.idx ∈ same))) } },
             [⟨.debug, .droppedControllers same index⟩])
      else .ok (net, [])
  | none => .ok (net, [⟨.info, .creatingController index⟩])

/-- The transformer-table argument of `create_trafo_characteristics`. -/
inductive TrafoTableName where
  | trafo
  | trafo3w
  deriving DecidableEq, Repr

/-- Access `net[trafotable]`. -/
def Net.getTrafoTable (net : Net) : TrafoTableName → TrafoTable
  | .trafo => net.trafo
  | .trafo3w => net.trafo3w

/-- Replace `net[trafotable]`. -/
def Net.setTrafoTable (net : Net) : TrafoTableName → TrafoTable → Net
  | .trafo, t => { net with trafo := t }
  | .trafo3w, t => { net with trafo3w := t }

/-- Create the `tap_dependent_impedance` column with default `False` when
it is absent. -/
def ensureTapCol (t : TrafoTable) : TrafoTable :=
  if t.hasTapCol then t
  else { t with hasTapCol := true,
                rows := t.rows.map (fun r => { r with tapDep := false }) }

/-- The assignment
`net[trafotable].loc[trafo_index, 'tap_dependent_impedance'] = True`. -/
def setTapTrue (ti : List Int) (t : TrafoTable) : TrafoTable :=
  { t with rows := t.rows.map (fun r =>
      if decide (r.idx ∈ ti) then { r with tapDep := true } else r) }

/-- Ensure the characteristic column exists with dtype `object`: create it
filled with nulls when absent, otherwise coerce its dtype to `object`
(cells are preserved either way). -/
def ensureObjCol (col : String) (t : TrafoTable) : TrafoTable :=
  if decide (col ∈ t.charColNames) then
    if decide (col ∈ t.objectColNames) then t
    else { t with objectColNames := col :: t.objectColNames }
  else
    { t with charColNames := col :: t.charColNames,
             objectColNames := col :: t.objectColNames }

/-- Replace the value of one key in an association list of cells. -/
def setCell (cs : List (String × Option Int)) (k : String) (v : Option Int) :
    List (String × Option Int) :=
  (k, v) :: cs.filter (fun p => !(decide (p.1 = k)))

/-- The assignment `net[trafotable].at[tid, col] = id`. -/
def setColAt (tid : Int) (col : String) (v : Int) (t : TrafoTable) :
    TrafoTable :=
  { t with rows := t.rows.map (fun r =>
      if decide (r.idx = tid) then { r with cells := setCell r.cells col (some v) }
      else r) }

/-- Modelled from the spec: `SplineCharacteristic.add_to_net(net,
"characteristic")` (defined in `control/util/characteristic.py`, outside
this file) appends the characteristic to the shared registry and returns
the new integer id; ids are the registry positions. -/
def addToNet (s : SplineChar) (net : Net) : Net × Int :=
  ({ net with characteristic := net.characteristic ++ [s] },
   Int.ofNat net.characteristic.length)

/-- One iteration of the loop of `create_trafo_characteristics`: build the
spline characteristic from the samples, register it, and write the new id
into the column at the transformer's row. -/
def stepNet (tt : TrafoTableName) (col : String) (tid : Int)
    (x_p y_p : List Int) (net : Net) : Net :=
  (addToNet ⟨x_p, y_p⟩ net).1.setTrafoTable tt
    (setColAt tid col (addToNet ⟨x_p, y_p⟩ net).2
      ((addToNet ⟨x_p, y_p⟩ net).1.getTrafoTable tt))

/-- The `for tid, x_p, y_p in zip(trafo_index, x_points, y_points)` loop of
`create_trafo_characteristics`. -/
def charLoop (tt : TrafoTableName) (col : String) :
    Net → List (Int × List Int × List Int) → Net
  | net, [] => net
  | net, (tid, x_p, y_p) :: rest =>
      charLoop tt col (stepNet tt col tid x_p y_p net) rest

/-- Embedding of `create_trafo_characteristics(net, trafotable, trafo_index,
variable, x_points, y_points)`. The state is threaded explicitly: the
returned network is the state at the moment the call returns or raises, so
a raise before any mutation returns the input network unchanged. A
`.loc` assignment whose labels are not all in the table index raises
`KeyError`. -/
def create_trafo_characteristics (net : Net) (trafotable : TrafoTableName)
    (trafo_index : List Int) (var : String)
    (x_points y_points : List (List Int)) : Net × Option PyErr :=
  if trafo_index.length ≠ x_points.length ∨ trafo_index.length ≠ y_points.length then
    (net, some .userWarning)
  else
    let t1 := ensureTapCol (net.getTrafoTable trafotable)
    let net1 := net.setTrafoTable trafotable t1
    if !(trafo_index.all (fun i => decide (i ∈ t1.rows.map (fun r => r.idx)))) then
      (net1, some .keyError)
    else
      let t2 := setTapTrue trafo_index t1
      let col := var ++ "_characteristic"
      let t3 := ensureObjCol col t2
      let net2 := net1.setTrafoTable trafotable t3
      (charLoop trafotable col net2 (trafo_index.zip (x_points.zip y_points)), none)

/-- The row of a transformer table carrying a given index label. -/
def trafoRowAt (t : TrafoTable) (i : Int) : Option TrafoRow :=
  t.rows.find? (fun r => r.idx = i)

/-- The cell of a characteristic column at a given row; an absent
association-list entry models a null cell. -/
def trafoCellAt (t : TrafoTable) (i : Int) (col : String) : Option Int :=
  match trafoRowAt t i with
  | some r => (r.cells.lookup col).getD none
  | none => none

/-- The two expected characteristic columns of the two-winding table. -/
def cols2w : List String :=
  ["vk_percent_characteristic", "vkr_percent_characteristic"]

/-- The six expected characteristic columns of the three-winding table, in
the comprehension order `for side in [hv, mv, lv] for r in ["", "r"]`. -/
def cols3w : List String :=
  ["vk_hv_percent_characteristic", "vkr_hv_percent_characteristic",
   "vk_mv_percent_characteristic", "vkr_mv_percent_characteristic",
   "vk_lv_percent_characteristic", "vkr_lv_percent_characteristic"]

/-- The skip condition of `trafo_characteristics_diagnostic` for one table:
empty, or no `tap_dependent_impedance` column, or that column all false. -/
def diagSkip (t : TrafoTable) : Bool :=
  t.rows.length = 0 || !t.hasTapCol || !(t.rows.any (fun r => r.tapDep))

/-- The per-column check of `trafo_characteristics_diagnostic`: exactly one
of five messages. -/
def diagColCheck (registry : List SplineChar) (name : String) (t : TrafoTable)
    (col : String) : LogEntry :=
  if !(decide (col ∈ t.charColNames)) then ⟨.info, .colMissing name col⟩
  else if !(decide (col ∈ t.objectColNames)) then ⟨.info, .colNotObject name col⟩
  else if (t.rows.filter (fun r => r.tapDep)).any (fun r =>
      ((r.cells.lookup col).getD none).isNone) then
    ⟨.info, .colMissingSome name col⟩
  else if (t.rows.filter (fun r => r.tapDep)).any (fun r =>
      match (r.cells.lookup col).getD none with
      | some id => !(decide (0 ≤ id ∧ id < Int.ofNat registry.length))
      | none => false) then
    ⟨.info, .colInvalidIndices name col⟩
  else
    ⟨.info, .colOk name col
      ((t.rows.filter (fun r => ((r.cells.lookup col).getD none).isSome)).length)⟩

/-- The diagnostic pass over one transformer table. -/
def diagTable (registry : List SplineChar) (name : String) (t : TrafoTable)
    (cols : List String) : List LogEntry :=
  if diagSkip t then [⟨.info, .noTapDependent name⟩]
  else
    ⟨.info, .foundTapDependent name (t.rows.filter (fun r => r.tapDep)).length⟩ ::
      cols.map (diagColCheck registry name t)

/-- Embedding of `trafo_characteristics_diagnostic(net)`: a pure function
from the network to the emitted log lines; it neither mutates the network
nor raises. -/
def trafo_characteristics_diagnostic (net : Net) : List LogEntry :=
  ⟨.info, .checkingTrafoChar⟩ ::
    (diagTable net.characteristic "trafo" net.trafo cols2w ++
     diagTable net.characteristic "trafo3w" net.trafo3w cols3w)

/-- Conjunction of the per-key matches of all non-`element_index` keys of a
parameter mapping against a controller's attributes. -/
def nonEIMatchAll (c : Controller) (P : List (String × Value)) : Bool :=
  (P.filter (fun kv => !(decide (kv.1 = "element_index")))).all
    (fun kv => keyMatchB (controllerAttr c kv.1) kv.2)

/-- Match of the `element_index` key, `true` when the mapping has none. -/
def eiMatch (c : Controller) (P : List (String × Value)) : Bool :=
  match P.lookup "element_index" with
  | none => true
  | some v => keyMatchB (controllerAttr c "element_index") v

/-- The overlap between the actual and requested `element_index` values that
the info log reports. -/
def eiOverlap (c : Controller) (P : List (String × Value)) : List Int :=
  pySetInter (ensure_iterability (controllerAttr c "element_index"))
    (ensure_iterability ((P.lookup "element_index").getD (.scalar 0)))

/-- The boolean computed by `_controller_attributes_query`; by
`attributes_query_isOk` below the query never raises, so this total
function describes its result exactly. -/
def attrQueryB (c : Controller) (P : List (String × Value)) : Bool :=
  match _controller_attributes_query c P with
  | .ok r => r.1
  | .error _ => false

/-- Whether the scalar cell of column `k` at index label `i` equals `n`. -/
def cellEqT (t : ControllerTable) (i : Int) (k : String) (n : Int) : Bool :=
  match t.rows.find? (fun r => r.idx = i) with
  | some r =>
      match r.cells.lookup k with
      | some c => decide (c = n)
      | none => false
  | none => false

/-- Whether the cell of column `k` at index label `i` equals a requested
parameter value; only a scalar request can equal a scalar cell. -/
def cellValEqT (t : ControllerTable) (i : Int) (k : String) (p : Value) : Bool :=
  match p with
  | .scalar n => cellEqT t i k n
  | _ => false

/-- Stated from the spec for claim C1: the indices of the searched subset,
narrowed by the type specifier, whose controller-table column values equal
the parameter mapping's values for every column key and for which
`_controller_attributes_query` holds on the remaining keys. -/
def gciSpec (net : Net) (ct : Option CtrlType) (P : List (String × Value))
    (idx : List Int) : List Int :=
  (typeNarrow net ct (searchBase net idx)).filter (fun i =>
    (P.all (fun kv =>
      if decide (kv.1 ∈ net.controller.cols) then cellValEqT net.controller i kv.1 kv.2
      else true)) &&
    attrQueryB (objAt net i)
      (P.filter (fun kv => !(decide (kv.1 ∈ net.controller.cols)))))

/-- Fixture: a controller whose `element_index` overlaps a mismatching
request. -/
def ctrlOverlap : Controller :=
  ⟨7, "Ctrl object", ["Ctrl"], [("a", .scalar 1), ("element_index", .arr [1, 2])]⟩

/-- Fixture: the request whose `element_index` mismatches `ctrlOverlap` with
a nonempty overlap. -/
def paramsOverlap : List (String × Value) :=
  [("a", .scalar 1), ("element_index", .arr [2, 3])]

/-- Fixture: a controller whose `element_index` mismatches a request with an
empty overlap. -/
def ctrlNoOverlap : Controller :=
  ⟨0, "Ctrl object", ["Ctrl"], [("element_index", .arr [1])]⟩

/-- Fixture: a controller stored in the fixture network. -/
def ctrlA : Controller :=
  ⟨0, "ConstControl object", ["ConstControl", "Controller"],
   [("level", .scalar 5), ("element_index", .arr [1, 2])]⟩

/-- Fixture: a second controller stored in the fixture network. -/
def ctrlB : Controller :=
  ⟨1, "TrafoController object", ["TrafoController", "Controller"],
   [("level", .scalar 5), ("element_index", .arr [3, 4])]⟩

/-- Fixture: a small network with two controllers and two transformers. -/
def netFix : Net :=
  { controller :=
      ⟨["order"], [⟨0, ctrlA, [("order", 1)]⟩, ⟨1, ctrlB, [("order", 2)]⟩]⟩,
    trafo := ⟨false, [], [], [⟨0, false, []⟩, ⟨1, false, []⟩]⟩,
    trafo3w := ⟨false, [], [], []⟩,
    characteristic := [] }

/-- Fixture: a parameter mapping mixing a column-backed key and an
attribute-only key. -/
def paramsFix : List (String × Value) :=
  [("order", .scalar 1), ("level", .scalar 5)]

theorem lookup_eq_none_of_not_mem_keys {β : Type} (k : String) :
    ∀ (l : List (String × β)), k ∉ l.map Prod.fst → l.lookup k = none := by
  intro l
  induction l with
  | nil => intro _; rfl
  | cons hd tl ih =>
      intro h
      have h1 : ¬(k = hd.1) := by
        intro he; exact h (by simp [he])
      have h2 : k ∉ tl.map Prod.fst := by
        intro hm; exact h (by simp [hm])
      cases hd with
      | mk k' v =>
          simp only [List.lookup]
          have : (k == k') = false := by
            simpa using h1
          rw [this]
          exact ih h2

theorem lookup_some_mem {β : Type} (k : String) (v : β) :
    ∀ (l : List (String × β)), l.lookup k = some v → (k, v) ∈ l := by
  intro l
  induction l with
  | nil => intro h; simp [List.lookup] at h
  | cons hd tl ih =>
      intro h
      cases hd with
      | mk k' v' =>
          simp only [List.lookup] at h
          by_cases he : k = k'
          · subst he
            simp at h
            subst h
            exact List.mem_cons_self _ _
          · have : (k == k') = false := by simpa using he
            rw [this] at h
            exact List.mem_cons_of_mem _ (ih h)

theorem mem_keys_exists_lookup {β : Type} (k : String) :
    ∀ (l : List (String × β)), k ∈ l.map Prod.fst → ∃ v, l.lookup k = some v := by
  intro l
  induction l with
  | nil => intro h; simp at h
  | cons hd tl ih =>
      intro h
      cases hd with
      | mk k' v' =>
          by_cases he : k = k'
          · subst he
            exact ⟨v', by simp [List.lookup]⟩
          · have hm : k ∈ tl.map Prod.fst := by
              simp at h
              rcases h with h | h
              · exact absurd h he
              · simpa using h
            obtain ⟨v, hv⟩ := ih hm
            refine ⟨v, ?_⟩
            simp only [List.lookup]
            have : (k == k') = false := by simpa using he
            rw [this]
            exact hv

theorem lookup_of_mem_nodup {β : Type} (k : String) (v : β) :
    ∀ (l : List (String × β)), (l.map Prod.fst).Nodup → (k, v) ∈ l →
      l.lookup k = some v := by
  intro l
  induction l with
  | nil => intro _ h; simp at h
  | cons hd tl ih =>
      intro hnd h
      cases hd with
      | mk k' v' =>
          simp only [List.map_cons, List.nodup_cons] at hnd
          rcases List.mem_cons.mp h with h | h
          · cases h
            simp [List.lookup]
          · have hne : (k == k') = false := by
              have : k ∈ tl.map Prod.fst := by
                exact List.mem_map.mpr ⟨(k, v), h, rfl⟩
              have : ¬(k = k') := fun he => hnd.1 (he ▸ this)
              simpa using this
            simp only [List.lookup]
            rw [hne]
            exact ih hnd.2 h

theorem keyMatch_eq_ok (a b : Value) : keyMatch a b = .ok (keyMatchB a b) := by
  unfold keyMatchB keyMatch valueEqBool valueAll
  cases h : valueEqRes a b with
  | plain v => simp
  | elems l =>
      by_cases hl : l.length = 1 <;> simp [hl]
  | raisedVE => simp

theorem queryLoop_isOk (c : Controller) :
    ∀ (P : List (String × Value)) (cm em : Bool),
      ∃ o, queryLoop c P cm em = .ok o := by
  intro P
  induction P with
  | nil => intro cm em; exact ⟨_, rfl⟩
  | cons hd tl ih =>
      intro cm em
      cases hd with
      | mk k v =>
          cases hl : c.attrs.lookup k with
          | none => exact ⟨.missing k, by simp only [queryLoop, hl]⟩
          | some av =>
              simp only [queryLoop, hl, keyMatch_eq_ok]
              by_cases hk : k = "element_index" <;> simp only [hk, if_true, if_false, reduceIte] <;> apply ih

theorem attributes_query_isOk (c : Controller) (P : List (String × Value)) :
    ∃ logs, _controller_attributes_query c P = .ok (attrQueryB c P, logs) := by
  obtain ⟨o, ho⟩ := queryLoop_isOk c P true true
  unfold attrQueryB _controller_attributes_query
  rw [ho]
  cases o with
  | missing k => exact ⟨[⟨.debug, .keyNotAttribute k⟩], rfl⟩
  | done cm em => refine ⟨_, rfl⟩

/-- Claim C4: for each present key the per-key match follows the three-tier
fallback (direct boolean equality, element-wise all-equal, nonempty
set-intersection truthiness), and the ambiguity error never escapes: the
fallback chain always produces a boolean, and `_controller_attributes_query`
always returns a result rather than raising. -/
theorem attribute_equality_fallback_spec (a b : Value) (c : Controller)
    (P : List (String × Value)) :
    keyMatch a b = .ok (match valueEqBool a b with
      | .ok m => m
      | .error _ =>
          match valueAll a b with
          | .ok m => m
          | .error _ => valueSetInterNonempty a b)
    ∧ ∃ r, _controller_attributes_query c P = .ok r := by
  constructor
  · unfold keyMatch valueEqBool valueAll
    cases h : valueEqRes a b with
    | plain v => simp
    | elems l => by_cases hl : l.length = 1 <;> simp [hl]
    | raisedVE => simp
  · obtain ⟨logs, h⟩ := attributes_query_isOk c P
    exact ⟨_, h⟩

theorem queryLoop_missing (c : Controller) :
    ∀ (P : List (String × Value)) (cm em : Bool),
      (∃ kv ∈ P, c.attrs.lookup kv.1 = none) →
      ∃ k, queryLoop c P cm em = .ok (.missing k) := by
  intro P
  induction P with
  | nil => intro cm em h; simp at h
  | cons hd tl ih =>
      intro cm em h
      cases hd with
      | mk k v =>
          cases hl : c.attrs.lookup k with
          | none => exact ⟨k, by simp only [queryLoop, hl]⟩
          | some av =>
              have hrest : ∃ kv ∈ tl, c.attrs.lookup kv.1 = none := by
                obtain ⟨kv, hkv, hn⟩ := h
                rcases List.mem_cons.mp hkv with he | hm
                · exfalso
                  rw [he] at hn
                  have hn' : c.attrs.lookup k = none := hn
                  exact Option.noConfusion (hl.symm.trans hn')
                · exact ⟨kv, hm, hn⟩
              simp only [queryLoop, hl, keyMatch_eq_ok]
              by_cases hk : k = "element_index" <;>
                simp only [hk, if_true, if_false, reduceIte] <;> exact ih _ _ hrest

/-- Claim C5: when any requested key is absent from the controller's own
attributes, `_controller_attributes_query` returns false (with only a debug
log) and raises no exception, regardless of the other keys. -/
theorem attributes_query_missing_key_false (c : Controller)
    (P : List (String × Value))
    (h : ∃ kv ∈ P, c.attrs.lookup kv.1 = none) :
    ∃ k, _controller_attributes_query c P =
      .ok (false, [⟨.debug, .keyNotAttribute k⟩]) := by
  obtain ⟨k, hk⟩ := queryLoop_missing c P true true h
  exact ⟨k, by unfold _controller_attributes_query; rw [hk]⟩

/-- Witness for claim C5 at a concrete controller and mapping: the key `b`
is no attribute, one other key matches, and the query returns false. -/
theorem attributes_query_missing_key_false_witness :
    ∃ k, _controller_attributes_query ctrlNoOverlap
      [("element_index", Value.arr [1]), ("b", Value.scalar 2)] =
      .ok (false, [⟨.debug, .keyNotAttribute k⟩]) :=
  attributes_query_missing_key_false ctrlNoOverlap
    [("element_index", Value.arr [1]), ("b", Value.scalar 2)]
    ⟨("b", Value.scalar 2), by decide, by decide⟩

theorem queryLoop_done (c : Controller) :
    ∀ (P : List (String × Value)) (cm em : Bool),
      (∀ kv ∈ P, (c.attrs.lookup kv.1).isSome) →
      (P.map Prod.fst).Nodup →
      queryLoop c P cm em = .ok (.done (cm && nonEIMatchAll c P)
        (match P.lookup "element_index" with
         | none => em
         | some v => keyMatchB (controllerAttr c "element_index") v)) := by
  intro P
  induction P with
  | nil =>
      intro cm em _ _
      simp [queryLoop, nonEIMatchAll, List.lookup]
  | cons hd tl ih =>
      intro cm em hp hnd
      cases hd with
      | mk k v =>
          obtain ⟨av, hl⟩ := Option.isSome_iff_exists.mp
            (hp (k, v) (List.mem_cons_self _ _))
          have hca : controllerAttr c k = av := by simp [controllerAttr, hl]
          have hptl : ∀ kv ∈ tl, (c.attrs.lookup kv.1).isSome :=
            fun kv hm => hp kv (List.mem_cons_of_mem _ hm)
          simp only [List.map_cons, List.nodup_cons] at hnd
          simp only [queryLoop, hl, keyMatch_eq_ok]
          by_cases hk : k = "element_index"
          · subst hk
            simp only [if_pos rfl]
            rw [ih _ _ hptl hnd.2]
            have hlnone : tl.lookup "element_index" = none :=
              lookup_eq_none_of_not_mem_keys _ _ hnd.1
            have hfilter : nonEIMatchAll c (("element_index", v) :: tl)
                = nonEIMatchAll c tl := by
              simp [nonEIMatchAll]
            have hcons : (("element_index", v) :: tl).lookup "element_index"
                = some v := by
              simp [List.lookup]
            rw [hlnone, hcons, hfilter, hca]
            simp
          · simp only [if_neg hk]
            rw [ih _ _ hptl hnd.2]
            have hcons : (("element_index" : String) == k) = false := by
              have : ¬("element_index" = k) := fun he => hk he.symm
              simpa using this
            have hfilter : nonEIMatchAll c ((k, v) :: tl)
                = (keyMatchB av v && nonEIMatchAll c tl) := by
              have hkb : (!(decide (k = "element_index"))) = true := by
                simp [hk]
              simp [nonEIMatchAll, List.filter_cons, hkb, hca]
            have hlk : ((k, v) :: tl).lookup "element_index"
                = tl.lookup "element_index" := by
              simp only [List.lookup, hcons]
            rw [hlk, hfilter, ← Bool.and_assoc]

/-- Claim C2 counterexample: for a controller whose sole attribute
`element_index` is `[1]` and the request `element_index = [2]`, every
non-`element_index` key matches (vacuously) and `element_index` does not,
yet `_controller_attributes_query` emits no info log at all (the overlap is
empty), while the claim requires an info line reporting the overlap to be
emitted whenever this situation occurs. -/
theorem element_index_missing_log_counterexample :
    nonEIMatchAll ctrlNoOverlap [("element_index", Value.arr [2])] = true
    ∧ eiMatch ctrlNoOverlap [("element_index", Value.arr [2])] = false
    ∧ _controller_attributes_query ctrlNoOverlap
        [("element_index", Value.arr [2])] = .ok (false, []) := by
  decide

/-- Claim C2 (amended): when every requested key is an attribute of the
controller, `_controller_attributes_query` returns the conjunction of the
matches of all non-`element_index` keys and of the `element_index` key; and
when the non-`element_index` keys all match, `element_index` does not, and
the requested and actual `element_index` values overlap in at least one
element, an info-level log line reporting that overlap is emitted — the log
never changes the false result. -/
theorem attributes_query_element_index_spec (c : Controller)
    (P : List (String × Value))
    (hp : ∀ kv ∈ P, (c.attrs.lookup kv.1).isSome)
    (hnd : (P.map Prod.fst).Nodup) :
    _controller_attributes_query c P =
      .ok (nonEIMatchAll c P && eiMatch c P,
        if nonEIMatchAll c P && !(eiMatch c P) && !(eiOverlap c P).isEmpty then
          [⟨.info, .elementIndexIntersection (eiOverlap c P) c.cIndex⟩]
        else []) := by
  unfold _controller_attributes_query
  rw [queryLoop_done c P true true hp hnd]
  cases hei : P.lookup "element_index" with
  | none =>
      have h1 : eiMatch c P = true := by simp [eiMatch, hei]
      simp [h1]
  | some v =>
      have h1 : eiMatch c P = keyMatchB (controllerAttr c "element_index") v := by
        simp [eiMatch, hei]
      have h2 : eiOverlap c P = pySetInter
          (ensure_iterability (controllerAttr c "element_index"))
          (ensure_iterability v) := by
        simp [eiOverlap, hei]
      cases hcm : nonEIMatchAll c P <;>
        cases hm : keyMatchB (controllerAttr c "element_index") v <;>
          simp [h1, h2, hei, hcm, hm]

/-- Witness for the amended claim C2 at a concrete controller whose
`element_index` is `[1, 2]` and request `[2, 3]`: the other key matches,
`element_index` does not, the overlap `[2]` is reported at info level, and
the result is false. -/
theorem attributes_query_element_index_spec_witness :
    _controller_attributes_query ctrlOverlap paramsOverlap =
      .ok (false, [⟨.info, .elementIndexIntersection [2] 7⟩]) :=
  (attributes_query_element_index_spec ctrlOverlap paramsOverlap
    (by decide) (by decide)).trans (by decide)

theorem searchBase_nil (net : Net) : searchBase net [] = controllerIndex net := by
  simp [searchBase]

theorem searchBase_self (net : Net) :
    searchBase net (controllerIndex net) = controllerIndex net := by
  unfold searchBase
  split <;> rfl

theorem searchBase_of_ne_nil (net : Net) (idx : List Int) (h : idx ≠ []) :
    searchBase net idx = idx := by
  unfold searchBase
  rw [if_pos]
  intro hl
  exact h (List.length_eq_zero.mp hl)

/-- Claim C10: an explicitly empty `idx` list is treated identically to the
default by `get_controller_index`, `get_controller_index_by_type` and
`get_controller_index_by_typename` — the full controller index set is
searched, so an empty index restriction cannot be expressed. -/
theorem empty_idx_default_spec (net : Net) (ct : Option CtrlType)
    (P : Option (List (String × Value))) (cn s : String) (cs : Bool) :
    get_controller_index net ct P [] =
      get_controller_index net ct P (controllerIndex net)
    ∧ get_controller_index_by_type net cn [] =
      get_controller_index_by_type net cn (controllerIndex net)
    ∧ get_controller_index_by_typename net s [] cs =
      get_controller_index_by_typename net s (controllerIndex net) cs := by
  refine ⟨?_, ?_, ?_⟩ <;>
    simp only [get_controller_index, get_controller_index_by_type,
      get_controller_index_by_typename, searchBase_nil, searchBase_self]

/-- Claim C9: a string type specifier retains exactly the indices whose
controller's display-name's first space-delimited token equals the string,
case-insensitively by default and case-sensitively on request (and
`get_controller_index` uses the case-insensitive form), while a type object
filters by `isinstance` membership in the controller's class list. -/
theorem typename_matching_spec (net : Net) (s cn : String) (idx : List Int)
    (h : idx ≠ []) :
    get_controller_index_by_typename net s idx true =
      idx.filter (fun i => decide (firstToken (objAt net i).displayName = s))
    ∧ get_controller_index_by_typename net s idx false =
      idx.filter (fun i =>
        decide (pyLower (firstToken (objAt net i).displayName) = pyLower s))
    ∧ get_controller_index net (some (.name s)) none idx =
      .ok (get_controller_index_by_typename net s idx false)
    ∧ get_controller_index_by_type net cn idx =
      idx.filter (fun i => decide (cn ∈ (objAt net i).classes)) := by
  refine ⟨?_, ?_, ?_, ?_⟩
  · simp [get_controller_index_by_typename, searchBase_of_ne_nil net idx h]
  · simp [get_controller_index_by_typename, searchBase_of_ne_nil net idx h]
  · simp [get_controller_index, typeNarrow, get_controller_index_by_typename,
      searchBase_of_ne_nil net idx h]
  · simp [get_controller_index_by_type, searchBase_of_ne_nil net idx h]

/-- Witness for claim C9 on the fixture network: the lowercase name
`constcontrol` matches controller 0 case-insensitively, matches nothing
case-sensitively, and the exact name matches case-sensitively. -/
theorem typename_matching_spec_witness :
    get_controller_index_by_typename netFix "constcontrol" [0, 1] false = [0]
    ∧ get_controller_index_by_typename netFix "constcontrol" [0, 1] true = []
    ∧ get_controller_index_by_typename netFix "ConstControl" [0, 1] true = [0] := by
  have h1 := typename_matching_spec netFix "constcontrol" "x" [0, 1] (by decide)
  have h2 := typename_matching_spec netFix "ConstControl" "x" [0, 1] (by decide)
  exact ⟨h1.2.1.trans (by decide), h1.1.trans (by decide), h2.1.trans (by decide)⟩

theorem find?_eq_some_of_mem_nodup :
    ∀ (rows : List ControllerRow),
      (rows.map (fun r => r.idx)).Nodup → ∀ (r : ControllerRow), r ∈ rows →
      rows.find? (fun x => decide (x.idx = r.idx)) = some r := by
  intro rows
  induction rows with
  | nil => intro _ r hr; simp at hr
  | cons hd tl ih =>
      intro hnd r hr
      simp only [List.map_cons, List.nodup_cons] at hnd
      by_cases hidx : hd.idx = r.idx
      · have hre : r = hd := by
          rcases List.mem_cons.mp hr with he | hm
          · exact he
          · exfalso
            exact hnd.1 (hidx ▸ List.mem_map.mpr ⟨r, hm, rfl⟩)
        rw [List.find?_cons_of_pos]
        · rw [hre]
        · simpa using hidx
      · have hm : r ∈ tl := by
          rcases List.mem_cons.mp hr with he | hm
          · exact absurd (by rw [he] : hd.idx = r.idx) hidx
          · exact hm
        rw [List.find?_cons_of_neg]
        · exact ih hnd.2 r hm
        · simpa using hidx

theorem mem_dfMask_scalar (t : ControllerTable)
    (hnd : (t.rows.map (fun r => r.idx)).Nodup) (k : String) (n : Int) (i : Int) :
    i ∈ ((t.rows.filter (fun r =>
        match r.cells.lookup k with
        | some c => decide (c = n)
        | none => false)).map (fun r => r.idx)) ↔ cellEqT t i k n = true := by
  constructor
  · intro h
    obtain ⟨r, hrf, hri⟩ := List.mem_map.mp h
    obtain ⟨hr, hp⟩ := List.mem_filter.mp hrf
    unfold cellEqT
    rw [← hri, find?_eq_some_of_mem_nodup t.rows hnd r hr]
    exact hp
  · intro h
    unfold cellEqT at h
    cases hf : t.rows.find? (fun x => decide (x.idx = i)) with
    | none => rw [hf] at h; exact absurd h (by simp)
    | some r =>
        rw [hf] at h
        have hr : r ∈ t.rows := List.mem_of_find?_eq_some hf
        have hri : r.idx = i := by simpa using List.find?_some hf
        exact List.mem_map.mpr ⟨r, List.mem_filter.mpr ⟨hr, h⟩, hri⟩

theorem dfFilterLoop_eq_filter (t : ControllerTable)
    (hnd : (t.rows.map (fun r => r.idx)).Nodup) (P : List (String × Value)) :
    ∀ (ks : List String) (idx : List Int),
      (∀ k ∈ ks, ∃ n, P.lookup k = some (.scalar n)) →
      dfFilterLoop t P ks idx = .ok (idx.filter (fun i =>
        ks.all (fun k => cellValEqT t i k ((P.lookup k).getD (.scalar 0))))) := by
  intro ks
  induction ks with
  | nil => intro idx _; simp [dfFilterLoop]
  | cons k ks ih =>
      intro idx hs
      obtain ⟨n, hn⟩ := hs k (List.mem_cons_self _ _)
      have hstl : ∀ k' ∈ ks, ∃ n', P.lookup k' = some (.scalar n') :=
        fun k' hm => hs k' (List.mem_cons_of_mem _ hm)
      unfold dfFilterLoop
      rw [hn]
      simp only [Option.getD_some, dfMask]
      rw [ih _ hstl]
      congr 1
      rw [List.filter_filter]
      apply List.filter_congr
      intro i _
      have hmem := mem_dfMask_scalar t hnd k n i
      have hdec : decide (i ∈ ((t.rows.filter (fun r =>
          match r.cells.lookup k with
          | some c => decide (c = n)
          | none => false)).map (fun r => r.idx))) = cellEqT t i k n := by
        rw [Bool.eq_iff_iff, decide_eq_true_eq]
        exact hmem
      rw [List.all_cons, hdec, hn]
      simp only [Option.getD_some, cellValEqT]
      exact Bool.and_comm _ _

theorem attrFilterLoop_eq_filter (net : Net) (attrP : List (String × Value)) :
    ∀ (l : List Int), attrFilterLoop net attrP l =
      .ok (l.filter (fun i => attrQueryB (objAt net i) attrP)) := by
  intro l
  induction l with
  | nil => rfl
  | cons i is ih =>
      obtain ⟨logs, hq⟩ := attributes_query_isOk (objAt net i) attrP
      simp [attrFilterLoop, hq, ih, List.filter_cons]

theorem dfKeysAll_eq_allP (t : ControllerTable) (i : Int)
    (P : List (String × Value)) (hknd : (P.map Prod.fst).Nodup) :
    ((P.map Prod.fst).filter (fun k => decide (k ∈ t.cols))).all
      (fun k => cellValEqT t i k ((P.lookup k).getD (.scalar 0)))
    = P.all (fun kv =>
        if decide (kv.1 ∈ t.cols) then cellValEqT t i kv.1 kv.2 else true) := by
  rw [Bool.eq_iff_iff]
  simp only [List.all_eq_true, List.mem_filter, List.mem_map]
  constructor
  · intro h kv hkv
    by_cases hc : kv.1 ∈ t.cols
    · have hlk : P.lookup kv.1 = some kv.2 :=
        lookup_of_mem_nodup kv.1 kv.2 P hknd hkv
      have hx := h kv.1 ⟨⟨kv, hkv, rfl⟩, by simpa using hc⟩
      rw [hlk] at hx
      simpa [hc] using hx
    · simp [hc]
  · intro h k hk
    obtain ⟨⟨kv, hkv, hfst⟩, hc⟩ := hk
    have hc' : kv.1 ∈ t.cols := by rw [hfst]; simpa using hc
    have hlk : P.lookup kv.1 = some kv.2 :=
      lookup_of_mem_nodup kv.1 kv.2 P hknd hkv
    have hx := h kv hkv
    rw [if_pos (by simpa using hc')] at hx
    rw [← hfst, hlk]
    simpa using hx

/-- Claim C1: with a parameter mapping, `get_controller_index` returns
exactly the indices of the searched subset (narrowed by the type specifier
when given) whose controller-table column cells equal the mapping's values
for every column key and whose controller object satisfies
`_controller_attributes_query` on the remaining keys; `gciSpec` states that
set directly from the spec's words. -/
theorem get_controller_index_parameters_spec (net : Net) (ct : Option CtrlType)
    (P : List (String × Value)) (idx : List Int)
    (hne : net.controller.rows ≠ [])
    (hrnd : (net.controller.rows.map (fun r => r.idx)).Nodup)
    (hidx : ∀ i ∈ idx, i ∈ controllerIndex net)
    (hknd : (P.map Prod.fst).Nodup)
    (hscalar : ∀ kv ∈ P, kv.1 ∈ net.controller.cols →
      ∃ n, kv.2 = Value.scalar n) :
    get_controller_index net ct (some P) idx = .ok (gciSpec net ct P idx) := by
  have hs : ∀ k ∈ (P.map Prod.fst).filter (fun k =>
      decide (k ∈ net.controller.cols)), ∃ n, P.lookup k = some (.scalar n) := by
    intro k hk
    obtain ⟨hkm, hc⟩ := List.mem_filter.mp hk
    obtain ⟨v, hv⟩ := mem_keys_exists_lookup k P hkm
    obtain ⟨n, hn⟩ := hscalar (k, v) (lookup_some_mem k v P hv) (by simpa using hc)
    have hn' : v = Value.scalar n := hn
    exact ⟨n, by rw [hv, hn']⟩
  simp only [get_controller_index, gciSpec]
  rw [dfFilterLoop_eq_filter net.controller hrnd P _ _ hs]
  simp only [attrFilterLoop_eq_filter, List.filter_filter]
  congr 1
  apply List.filter_congr
  intro i _
  rw [dfKeysAll_eq_allP net.controller i P hknd]
  exact Bool.and_comm _ _

/-- Witness for claim C1 on the fixture network with a mapping mixing the
column-backed key `order` and the attribute-only key `level`: only
controller 0 has `order = 1`, both have `level = 5`, so exactly index 0 is
returned. -/
theorem get_controller_index_parameters_spec_witness :
    get_controller_index netFix none (some paramsFix) [] = .ok [0] :=
  (get_controller_index_parameters_spec netFix none paramsFix []
    (by decide) (by decide) (by decide) (by decide)
    (by
      intro kv hkv _
      rcases List.mem_cons.mp hkv with h | h
      · exact ⟨1, by rw [h]⟩
      · rcases List.mem_cons.mp h with h2 | h2
        · exact ⟨5, by rw [h2]⟩
        · simp at h2)).trans (by decide)

/-- Claim C7: with a `matching_params` dict,
`drop_same_type_existing_controllers` removes from the controller collection
exactly the rows whose index the query engine returned for the given type
and parameters — every other row, and every other part of the network, is
unchanged — and without `matching_params` it performs no search and removes
nothing. -/
theorem drop_same_type_existing_controllers_spec (net : Net)
    (tct : CtrlType) (i : Option Int) :
    drop_same_type_existing_controllers net tct i none =
      .ok (net, [⟨.info, .creatingController i⟩])
    ∧ ∀ (P : List (String × Value)) (l : List Int),
      get_controller_index net (some tct) (some P) [] = .ok l →
      drop_same_type_existing_controllers net tct i (some P) =
        .ok ({ net with controller := { net.controller with
                 rows := net.controller.rows.filter
                   (fun r => !(decide (r.idx ∈ l))) } },
             if l.length ≠ 0 then [⟨.debug, .droppedControllers l i⟩] else []) := by
  constructor
  · rfl
  · intro P l hq
    simp only [drop_same_type_existing_controllers, hq]
    by_cases hl : l.length ≠ 0
    · simp only [if_pos hl]
    · simp only [if_neg hl]
      have hnil : l = [] := List.length_eq_zero.mp (not_not.mp hl)
      subst hnil
      simp

/-- Witness for claim C7 on the fixture network: matching on type
`ConstControl` with `level = 5` finds exactly controller 0, and the call
removes exactly that row. -/
theorem drop_same_type_existing_controllers_spec_witness :
    drop_same_type_existing_controllers netFix (.cls "ConstControl") (some 5)
      (some [("level", Value.scalar 5)]) =
      .ok ({ netFix with controller := { netFix.controller with
               rows := netFix.controller.rows.filter
                 (fun r => !(decide (r.idx ∈ ([0] : List Int)))) } },
           if ([0] : List Int).length ≠ 0 then
             [⟨.debug, .droppedControllers [0] (some 5)⟩] else []) :=
  (drop_same_type_existing_controllers_spec netFix (.cls "ConstControl")
    (some 5)).2 [("level", Value.scalar 5)] [0] (by decide)

/-- Claim C3: `create_trafo_characteristics` raises its user-facing
validation error (`UserWarning`) exactly when the lengths of `trafo_index`,
`x_points` and `y_points` are not all equal, and in that case the network —
transformer table and characteristic registry included — is returned
completely unchanged, since the check precedes every write; this raise is
the module's only deliberate one. -/
theorem create_trafo_characteristics_length_check (net : Net)
    (tt : TrafoTableName) (ti : List Int) (v : String)
    (xp yp : List (List Int)) :
    ((create_trafo_characteristics net tt ti v xp yp).2 = some .userWarning ↔
      ¬(ti.length = xp.length ∧ ti.length = yp.length))
    ∧ (¬(ti.length = xp.length ∧ ti.length = yp.length) →
        (create_trafo_characteristics net tt ti v xp yp).1 = net) := by
  unfold create_trafo_characteristics
  by_cases h : ti.length ≠ xp.length ∨ ti.length ≠ yp.length
  · rw [if_pos h]
    exact ⟨⟨fun _ => by tauto, fun _ => rfl⟩, fun _ => rfl⟩
  · rw [if_neg h]
    have h' : ti.length = xp.length ∧ ti.length = yp.length := by
      constructor
      · by_contra hx; exact h (Or.inl hx)
      · by_contra hy; exact h (Or.inr hy)
    constructor
    · constructor
      · intro hcontra
        exfalso
        by_cases hsub : (!(ti.all (fun i => decide (i ∈
            (ensureTapCol (net.getTrafoTable tt)).rows.map (fun r => r.idx))))) = true
        · rw [if_pos hsub] at hcontra
          simp at hcontra
        · rw [if_neg hsub] at hcontra
          simp at hcontra
      · intro hcontra; exact absurd h' hcontra
    · intro hcontra; exact absurd h' hcontra

/-- Witness for claim C3: one transformer index against empty point lists
raises the validation error and leaves the fixture network untouched. -/
theorem create_trafo_characteristics_length_check_witness :
    (create_trafo_characteristics netFix .trafo [0] "vk_percent" [] []).2 =
      some .userWarning
    ∧ (create_trafo_characteristics netFix .trafo [0] "vk_percent" [] []).1 =
      netFix :=
  ⟨(create_trafo_characteristics_length_check netFix .trafo [0] "vk_percent"
      [] []).1.mpr (by decide),
   (create_trafo_characteristics_length_check netFix .trafo [0] "vk_percent"
      [] []).2 (by decide)⟩

/-- Claim C8: `trafo_characteristics_diagnostic` is a pure observer — it
maps the network to log lines, mutating nothing and raising nothing — and
for each transformer table it skips all per-column checks, emitting only the
informational no-tap-dependent message, exactly when the table is empty,
lacks the `tap_dependent_impedance` column, or has that column all-false. -/
theorem trafo_characteristics_diagnostic_skip_spec (net : Net) :
    trafo_characteristics_diagnostic net =
      ⟨.info, .checkingTrafoChar⟩ ::
        (diagTable net.characteristic "trafo" net.trafo cols2w ++
         diagTable net.characteristic "trafo3w" net.trafo3w cols3w)
    ∧ (∀ (reg : List SplineChar) (name : String) (t : TrafoTable)
        (cols : List String), diagSkip t = true →
        diagTable reg name t cols = [⟨.info, .noTapDependent name⟩])
    ∧ (∀ t : TrafoTable, diagSkip t = true ↔
        (t.rows = [] ∨ t.hasTapCol = false ∨ ∀ r ∈ t.rows, r.tapDep = false)) := by
  refine ⟨rfl, ?_, ?_⟩
  · intro reg name t cols h
    simp [diagTable, h]
  · intro t
    simp only [diagSkip, Bool.or_eq_true, decide_eq_true_eq,
      List.length_eq_zero, Bool.not_eq_true', List.any_eq_false,
      Bool.not_eq_true]
    tauto

/-- Witness for claim C8: on an empty transformer table the diagnostic
emits exactly the no-tap-dependent message and no per-column check. -/
theorem trafo_characteristics_diagnostic_skip_spec_witness :
    diagTable [] "trafo" ⟨false, [], [], []⟩ cols2w =
      [⟨.info, .noTapDependent "trafo"⟩] :=
  (trafo_characteristics_diagnostic_skip_spec netFix).2.1 [] "trafo"
    ⟨false, [], [], []⟩ cols2w (by decide)

theorem getTrafoTable_setTrafoTable (net : Net) (tt : TrafoTableName)
    (t : TrafoTable) : (net.setTrafoTable tt t).getTrafoTable tt = t := by
  cases tt <;> rfl

theorem setTrafoTable_characteristic (net : Net) (tt : TrafoTableName)
    (t : TrafoTable) :
    (net.setTrafoTable tt t).characteristic = net.characteristic := by
  cases tt <;> rfl

theorem addToNet_getTrafoTable (s : SplineChar) (net : Net)
    (tt : TrafoTableName) :
    ((addToNet s net).1.getTrafoTable tt) = net.getTrafoTable tt := by
  cases tt <;> rfl

theorem trafoRows_find?_map (f : TrafoRow → TrafoRow)
    (hf : ∀ r, (f r).idx = r.idx) (i : Int) :
    ∀ (rows : List TrafoRow),
      (rows.map f).find? (fun r => decide (r.idx = i)) =
        (rows.find? (fun r => decide (r.idx = i))).map f := by
  intro rows
  induction rows with
  | nil => rfl
  | cons hd tl ih =>
      by_cases hi : hd.idx = i
      · rw [List.map_cons, List.find?_cons_of_pos, List.find?_cons_of_pos]
        · rfl
        · simpa using hi
        · simp [hf, hi]
      · rw [List.map_cons, List.find?_cons_of_neg, List.find?_cons_of_neg]
        · exact ih
        · simpa using hi
        · simp [hf, hi]

theorem find?_isSome_of_mem_idx :
    ∀ (rows : List TrafoRow) (i : Int),
      i ∈ rows.map (fun r => r.idx) →
      (rows.find? (fun r => decide (r.idx = i))).isSome = true := by
  intro rows
  induction rows with
  | nil => intro i h; simp at h
  | cons hd tl ih =>
      intro i h
      by_cases hi : hd.idx = i
      · rw [List.find?_cons_of_pos]
        · rfl
        · simpa using hi
      · rw [List.find?_cons_of_neg]
        · apply ih
          simp only [List.map_cons, List.mem_cons] at h
          rcases h with h | h
          · exact absurd h.symm hi
          · exact h
        · simpa using hi

theorem trafoRowAt_setColAt (t : TrafoTable) (tid : Int) (col : String)
    (vv : Int) (i : Int) :
    trafoRowAt (setColAt tid col vv t) i =
      (trafoRowAt t i).map (fun r =>
        if decide (r.idx = tid) then
          { r with cells := setCell r.cells col (some vv) }
        else r) := by
  unfold trafoRowAt setColAt
  exact trafoRows_find?_map _ (fun r => by split <;> rfl) i t.rows

theorem trafoCellAt_setColAt_self (t : TrafoTable) (tid : Int) (col : String)
    (vv : Int) (h : (trafoRowAt t tid).isSome = true) :
    trafoCellAt (setColAt tid col vv t) tid col = some vv := by
  obtain ⟨r, hr⟩ := Option.isSome_iff_exists.mp h
  have hri : r.idx = tid := by
    simpa using List.find?_some hr
  unfold trafoCellAt
  rw [trafoRowAt_setColAt, hr]
  simp [hri, setCell, List.lookup]

theorem trafoCellAt_setColAt_other (t : TrafoTable) (tid : Int) (col : String)
    (vv : Int) (i : Int) (h : i ≠ tid) (col' : String) :
    trafoCellAt (setColAt tid col vv t) i col' = trafoCellAt t i col' := by
  unfold trafoCellAt
  rw [trafoRowAt_setColAt]
  cases hr : trafoRowAt t i with
  | none => rfl
  | some r =>
      have hri : r.idx = i := by
        simpa using List.find?_some hr
      simp [hri, h]

theorem trafoRowAt_tapDep_setColAt (t : TrafoTable) (tid : Int) (col : String)
    (vv : Int) (i : Int) :
    (trafoRowAt (setColAt tid col vv t) i).map (fun r => r.tapDep) =
      (trafoRowAt t i).map (fun r => r.tapDep) := by
  rw [trafoRowAt_setColAt]
  cases trafoRowAt t i with
  | none => rfl
  | some r =>
      by_cases h : decide (r.idx = tid) = true <;> simp [Option.map, h]

theorem setColAt_hasTapCol (t : TrafoTable) (tid : Int) (col : String)
    (vv : Int) : (setColAt tid col vv t).hasTapCol = t.hasTapCol := rfl

theorem setColAt_idxMap (t : TrafoTable) (tid : Int) (col : String)
    (vv : Int) :
    (setColAt tid col vv t).rows.map (fun r => r.idx) =
      t.rows.map (fun r => r.idx) := by
  simp only [setColAt, List.map_map]
  congr 1
  funext r
  simp only [Function.comp_apply]
  split <;> rfl

theorem ensureTapCol_idxMap (t : TrafoTable) :
    (ensureTapCol t).rows.map (fun r => r.idx) =
      t.rows.map (fun r => r.idx) := by
  unfold ensureTapCol
  split
  · rfl
  · simp only [List.map_map]
    congr 1

theorem ensureTapCol_hasTapCol (t : TrafoTable) :
    (ensureTapCol t).hasTapCol = true := by
  unfold ensureTapCol
  split
  · assumption
  · rfl

theorem setTapTrue_hasTapCol (t : TrafoTable) (ti : List Int) :
    (setTapTrue ti t).hasTapCol = t.hasTapCol := rfl

theorem setTapTrue_idxMap (t : TrafoTable) (ti : List Int) :
    (setTapTrue ti t).rows.map (fun r => r.idx) =
      t.rows.map (fun r => r.idx) := by
  simp only [setTapTrue, List.map_map]
  congr 1
  funext r
  simp only [Function.comp_apply]
  split <;> rfl

theorem trafoRowAt_setTapTrue (t : TrafoTable) (ti : List Int) (i : Int) :
    trafoRowAt (setTapTrue ti t) i =
      (trafoRowAt t i).map (fun r =>
        if decide (r.idx ∈ ti) then { r with tapDep := true } else r) := by
  unfold trafoRowAt setTapTrue
  exact trafoRows_find?_map _ (fun r => by split <;> rfl) i t.rows

theorem ensureObjCol_rows (col : String) (t : TrafoTable) :
    (ensureObjCol col t).rows = t.rows := by
  unfold ensureObjCol
  split
  · split <;> rfl
  · rfl

theorem ensureObjCol_hasTapCol (col : String) (t : TrafoTable) :
    (ensureObjCol col t).hasTapCol = t.hasTapCol := by
  unfold ensureObjCol
  split
  · split <;> rfl
  · rfl

theorem stepNet_characteristic (tt : TrafoTableName) (col : String)
    (tid : Int) (x y : List Int) (net : Net) :
    (stepNet tt col tid x y net).characteristic =
      net.characteristic ++ [⟨x, y⟩] := by
  simp [stepNet, setTrafoTable_characteristic, addToNet]

theorem stepNet_getTrafoTable (tt : TrafoTableName) (col : String)
    (tid : Int) (x y : List Int) (net : Net) :
    (stepNet tt col tid x y net).getTrafoTable tt =
      setColAt tid col (Int.ofNat net.characteristic.length)
        (net.getTrafoTable tt) := by
  unfold stepNet
  rw [getTrafoTable_setTrafoTable, addToNet_getTrafoTable]
  rfl

theorem charLoop_characteristic (tt : TrafoTableName) (col : String) :
    ∀ (L : List (Int × List Int × List Int)) (net : Net),
      (charLoop tt col net L).characteristic =
        net.characteristic ++ L.map (fun e => ⟨e.2.1, e.2.2⟩) := by
  intro L
  induction L with
  | nil => intro net; simp [charLoop]
  | cons e L ih =>
      intro net
      obtain ⟨tid, x, y⟩ := e
      simp only [charLoop]
      rw [ih, stepNet_characteristic]
      simp [List.append_assoc, List.singleton_append]

theorem charLoop_hasTapCol (tt : TrafoTableName) (col : String) :
    ∀ (L : List (Int × List Int × List Int)) (net : Net),
      ((charLoop tt col net L).getTrafoTable tt).hasTapCol =
        (net.getTrafoTable tt).hasTapCol := by
  intro L
  induction L with
  | nil => intro net; rfl
  | cons e L ih =>
      intro net
      obtain ⟨tid, x, y⟩ := e
      simp only [charLoop]
      rw [ih, stepNet_getTrafoTable, setColAt_hasTapCol]

theorem charLoop_tapDepAt (tt : TrafoTableName) (col : String) :
    ∀ (L : List (Int × List Int × List Int)) (net : Net) (i : Int),
      (trafoRowAt ((charLoop tt col net L).getTrafoTable tt) i).map
          (fun r => r.tapDep) =
        (trafoRowAt (net.getTrafoTable tt) i).map (fun r => r.tapDep) := by
  intro L
  induction L with
  | nil => intro net i; rfl
  | cons e L ih =>
      intro net i
      obtain ⟨tid, x, y⟩ := e
      simp only [charLoop]
      rw [ih, stepNet_getTrafoTable, trafoRowAt_tapDep_setColAt]

theorem charLoop_idxMap (tt : TrafoTableName) (col : String) :
    ∀ (L : List (Int × List Int × List Int)) (net : Net),
      ((charLoop tt col net L).getTrafoTable tt).rows.map (fun r => r.idx) =
        (net.getTrafoTable tt).rows.map (fun r => r.idx) := by
  intro L
  induction L with
  | nil => intro net; rfl
  | cons e L ih =>
      intro net
      obtain ⟨tid, x, y⟩ := e
      simp only [charLoop]
      rw [ih, stepNet_getTrafoTable, setColAt_idxMap]

theorem charLoop_cellAt_untouched (tt : TrafoTableName) (col : String) :
    ∀ (L : List (Int × List Int × List Int)) (net : Net) (i : Int),
      i ∉ L.map (fun e => e.1) →
      trafoCellAt ((charLoop tt col net L).getTrafoTable tt) i col =
        trafoCellAt (net.getTrafoTable tt) i col := by
  intro L
  induction L with
  | nil => intro net i _; rfl
  | cons e L ih =>
      intro net i hni
      obtain ⟨tid, x, y⟩ := e
      simp only [List.map_cons, List.mem_cons] at hni
      push_neg at hni
      simp only [charLoop]
      rw [ih _ _ hni.2, stepNet_getTrafoTable,
        trafoCellAt_setColAt_other _ _ _ _ _ hni.1]

theorem charLoop_cellAt (tt : TrafoTableName) (col : String) :
    ∀ (L : List (Int × List Int × List Int)) (net : Net),
      (L.map (fun e => e.1)).Nodup →
      (∀ e ∈ L, e.1 ∈ (net.getTrafoTable tt).rows.map (fun r => r.idx)) →
      ∀ (k : Nat) (hk : k < L.length),
        trafoCellAt ((charLoop tt col net L).getTrafoTable tt)
            (L.get ⟨k, hk⟩).1 col =
          some (Int.ofNat (net.characteristic.length + k)) := by
  intro L
  induction L with
  | nil => intro net _ _ k hk; exact absurd hk (by simp)
  | cons e L ih =>
      intro net hnd hpres k hk
      obtain ⟨tid, x, y⟩ := e
      simp only [List.map_cons, List.nodup_cons] at hnd
      cases k with
      | zero =>
          simp only [charLoop, List.get]
          rw [charLoop_cellAt_untouched tt col L _ tid hnd.1,
            stepNet_getTrafoTable]
          rw [trafoCellAt_setColAt_self]
          · rw [Nat.add_zero]
          · apply find?_isSome_of_mem_idx
            exact hpres (tid, x, y) (List.mem_cons_self _ _)
      | succ k =>
          have hpres' : ∀ e ∈ L, e.1 ∈
              ((stepNet tt col tid x y net).getTrafoTable tt).rows.map
                (fun r => r.idx) := by
            intro e he
            rw [stepNet_getTrafoTable, setColAt_idxMap]
            exact hpres e (List.mem_cons_of_mem _ he)
          have h2 := ih (stepNet tt col tid x y net) hnd.2 hpres' k
            (Nat.lt_of_succ_lt_succ hk)
          simp only [charLoop, List.get]
          rw [h2, stepNet_characteristic]
          congr 2
          simp
          omega

theorem setTrafoTable_setTrafoTable (net : Net) (tt : TrafoTableName)
    (t t' : TrafoTable) :
    (net.setTrafoTable tt t).setTrafoTable tt t' = net.setTrafoTable tt t' := by
  cases tt <;> rfl

/-- Claim C6: after a successful `create_trafo_characteristics` call the
target table's `tap_dependent_impedance` column exists (it was created with
default false when absent) and is true at every row of `trafo_index`; one
spline characteristic per `(id, x, y)` triple, built from the given
samples, has been appended in order to the characteristic registry; and the
id of the k-th new characteristic has been written into the
`<variable>_characteristic` column at the k-th transformer's row. -/
theorem create_trafo_characteristics_success_spec (net : Net)
    (tt : TrafoTableName) (ti : List Int) (v : String)
    (xp yp : List (List Int))
    (hx : ti.length = xp.length) (hy : ti.length = yp.length)
    (hnd : ti.Nodup)
    (hsub : ∀ i ∈ ti, i ∈ (net.getTrafoTable tt).rows.map (fun r => r.idx)) :
    (create_trafo_characteristics net tt ti v xp yp).2 = none
    ∧ ((create_trafo_characteristics net tt ti v xp yp).1.getTrafoTable
        tt).hasTapCol = true
    ∧ (∀ i ∈ ti,
        (trafoRowAt ((create_trafo_characteristics net tt ti v
            xp yp).1.getTrafoTable tt) i).map (fun r => r.tapDep) = some true)
    ∧ (create_trafo_characteristics net tt ti v xp yp).1.characteristic =
        net.characteristic ++ (xp.zip yp).map (fun p => ⟨p.1, p.2⟩)
    ∧ (∀ (k : Nat) (hk : k < ti.length),
        trafoCellAt ((create_trafo_characteristics net tt ti v
            xp yp).1.getTrafoTable tt) (ti.get ⟨k, hk⟩)
            (v ++ "_characteristic") =
          some (Int.ofNat (net.characteristic.length + k))) := by
  have hcond : ¬(ti.length ≠ xp.length ∨ ti.length ≠ yp.length) := by
    push_neg
    exact ⟨hx, hy⟩
  have hall : (ti.all (fun i => decide (i ∈
      (ensureTapCol (net.getTrafoTable tt)).rows.map (fun r => r.idx)))) =
      true := by
    rw [List.all_eq_true]
    intro i hi
    rw [decide_eq_true_eq, ensureTapCol_idxMap]
    exact hsub i hi
  have hred : create_trafo_characteristics net tt ti v xp yp =
      (charLoop tt (v ++ "_characteristic")
        (net.setTrafoTable tt (ensureObjCol (v ++ "_characteristic")
          (setTapTrue ti (ensureTapCol (net.getTrafoTable tt)))))
        (ti.zip (xp.zip yp)), none) := by
    unfold create_trafo_characteristics
    rw [if_neg hcond]
    simp only [hall, Bool.not_true, Bool.false_eq_true, if_false]
    rw [setTrafoTable_setTrafoTable]
  have hLlen : (ti.zip (xp.zip yp)).length = ti.length := by
    rw [List.length_zip, List.length_zip]
    omega
  have hZle : (xp.zip yp).length ≤ ti.length := by
    rw [List.length_zip]
    omega
  have hZge : ti.length ≤ (xp.zip yp).length := by
    rw [List.length_zip]
    omega
  have hmapfst : (ti.zip (xp.zip yp)).map (fun e => e.1) = ti :=
    List.map_fst_zip ti (xp.zip yp) hZge
  have hpres2 : ∀ e ∈ ti.zip (xp.zip yp), e.1 ∈
      ((net.setTrafoTable tt (ensureObjCol (v ++ "_characteristic")
        (setTapTrue ti (ensureTapCol
          (net.getTrafoTable tt))))).getTrafoTable tt).rows.map
        (fun r => r.idx) := by
    intro e he
    rw [getTrafoTable_setTrafoTable]
    have : (ensureObjCol (v ++ "_characteristic")
        (setTapTrue ti (ensureTapCol (net.getTrafoTable tt)))).rows.map
          (fun r => r.idx) =
        (net.getTrafoTable tt).rows.map (fun r => r.idx) := by
      rw [ensureObjCol_rows, setTapTrue_idxMap, ensureTapCol_idxMap]
    rw [this]
    have hmem : e.1 ∈ ti := by
      rw [← hmapfst]
      exact List.mem_map.mpr ⟨e, he, rfl⟩
    exact hsub e.1 hmem
  rw [hred]
  refine ⟨rfl, ?_, ?_, ?_, ?_⟩
  · rw [charLoop_hasTapCol, getTrafoTable_setTrafoTable,
      ensureObjCol_hasTapCol, setTapTrue_hasTapCol, ensureTapCol_hasTapCol]
  · intro i hi
    rw [charLoop_tapDepAt, getTrafoTable_setTrafoTable]
    have hrows : trafoRowAt (ensureObjCol (v ++ "_characteristic")
        (setTapTrue ti (ensureTapCol (net.getTrafoTable tt)))) i =
        trafoRowAt (setTapTrue ti (ensureTapCol (net.getTrafoTable tt))) i := by
      unfold trafoRowAt
      rw [ensureObjCol_rows]
    rw [hrows, trafoRowAt_setTapTrue]
    have hpresence : (trafoRowAt (ensureTapCol
        (net.getTrafoTable tt)) i).isSome = true := by
      apply find?_isSome_of_mem_idx
      rw [ensureTapCol_idxMap]
      exact hsub i hi
    obtain ⟨r, hr⟩ := Option.isSome_iff_exists.mp hpresence
    have hri : r.idx = i := by simpa using List.find?_some hr
    rw [hr]
    simp [Option.map, hri, hi]
  · rw [charLoop_characteristic, setTrafoTable_characteristic]
    congr 1
    have hcomp : (fun e : Int × List Int × List Int =>
        (⟨e.2.1, e.2.2⟩ : SplineChar)) =
        ((fun p : List Int × List Int => (⟨p.1, p.2⟩ : SplineChar)) ∘
          Prod.snd) := rfl
    rw [hcomp, ← List.map_map, List.map_snd_zip ti (xp.zip yp) hZle]
  · intro k hk
    have hk' : k < (ti.zip (xp.zip yp)).length := by
      rw [hLlen]
      exact hk
    have hfst : ((ti.zip (xp.zip yp)).get ⟨k, hk'⟩).1 = ti.get ⟨k, hk⟩ := by
      rw [List.get_eq_getElem, List.get_eq_getElem, List.getElem_zip]
    have hmain := charLoop_cellAt tt (v ++ "_characteristic")
      (ti.zip (xp.zip yp))
      (net.setTrafoTable tt (ensureObjCol (v ++ "_characteristic")
        (setTapTrue ti (ensureTapCol (net.getTrafoTable tt)))))
      (by rw [hmapfst]; exact hnd) hpres2 k hk'
    rw [hfst, setTrafoTable_characteristic] at hmain
    exact hmain

/-- Witness for claim C6 on the fixture network: two transformers, variable
`vk_percent`, two sample pairs; the call succeeds, the two splines land in
the registry as ids 0 and 1, and transformer 0's new column cell holds id
0. -/
theorem create_trafo_characteristics_success_spec_witness :
    (create_trafo_characteristics netFix .trafo [0, 1] "vk_percent"
      [[0, 1], [0, 1]] [[5, 6], [4, 5]]).2 = none
    ∧ (create_trafo_characteristics netFix .trafo [0, 1] "vk_percent"
      [[0, 1], [0, 1]] [[5, 6], [4, 5]]).1.characteristic =
      [⟨[0, 1], [5, 6]⟩, ⟨[0, 1], [4, 5]⟩]
    ∧ trafoCellAt ((create_trafo_characteristics netFix .trafo [0, 1]
        "vk_percent" [[0, 1], [0, 1]]
        [[5, 6], [4, 5]]).1.getTrafoTable .trafo) 0
        "vk_percent_characteristic" = some 0 := by
  obtain ⟨h1, _, _, h4, h5⟩ := create_trafo_characteristics_success_spec
    netFix .trafo [0, 1] "vk_percent" [[0, 1], [0, 1]] [[5, 6], [4, 5]]
    (by decide) (by decide) (by decide) (by decide)
  refine ⟨h1, by simpa using h4, ?_⟩
  have := h5 0 (by decide)
  simpa using this

end PandapowerControlAux
